import Mathlib

/-!
Verification of the associative memory store of the `brain` repository.

The embedding models the two source classes the claims cite:

* `Brain.DB` with its operations embeds `MemorySystem`
  (src/brain/agents/memory.py): a SQLite database with tables
  `memories(id, content, context, timestamp, importance, access_count,
  last_accessed)`, `context_index(memory_id, context_key, context_value)`
  and `associations(source_id, target_id, strength)`, plus the in-process
  working-memory dictionary.

* `Brain.MDB` with its operations embeds `MemoryDatabase`
  (src/brain/tools/memory.py): tables `memories(id, timestamp, type,
  content, metadata, importance)` and `tags(memory_id, tag)`.

Modelling conventions:
* SQLite REAL values (`importance`, `strength`) are modelled as `Rat`.
  The source only ever compares or stores them (no arithmetic), so any
  linearly ordered dense type is faithful.
* Timestamps (`datetime.now().isoformat()` strings) are modelled as `Nat`
  supplied by the caller as a `now` argument.  ISO-8601 strings produced by
  one process compare lexicographically exactly as chronologically, so the
  string sort in `_prune_working_memory` is a sort by this `Nat`.
* Tables are lists in rowid (insertion) order.  `AUTOINCREMENT` ids start
  at 1 (`next_id`).
* Python dict iteration order and `sorted` stability are modelled with
  insertion-ordered lists and the stable `List.insertionSort`.
* Operations that can raise in Python return `Option`; operations whose
  SQL always succeeds are total functions (SQLite does not enforce the
  declared FOREIGN KEYs by default, and the source never enables
  `PRAGMA foreign_keys`, so no statement in these methods can fail on a
  constraint).
-/

namespace Brain

/-- Row of the `memories` table of `MemorySystem` (src/brain/agents/memory.py).
Column order and defaults follow the CREATE TABLE statement:
`importance REAL DEFAULT 0.5`, `access_count INTEGER DEFAULT 0`,
`last_accessed` initially NULL. -/
structure MemoryRow where
  id : Nat
  content : String
  context : List (String × String)
  timestamp : Nat
  importance : Rat
  access_count : Nat
  last_accessed : Option Nat
deriving DecidableEq

/-- Row of the `context_index` table: `(memory_id, context_key, context_value)`. -/
structure CtxEntry where
  memory_id : Nat
  context_key : String
  context_value : String
deriving DecidableEq

/-- Row of the `associations` table: `(source_id, target_id, strength)`. -/
structure Edge where
  source_id : Nat
  target_id : Nat
  strength : Rat
deriving DecidableEq

/-- The durable state of `MemorySystem`: the three SQLite tables plus the
next AUTOINCREMENT id. -/
structure DB where
  memories : List MemoryRow
  context_index : List CtxEntry
  associations : List Edge
  next_id : Nat
deriving DecidableEq

/-- A fresh database, as produced by `_initialize_db`. -/
def DB.empty : DB := ⟨[], [], [], 1⟩

/-- `MemorySystem.store(content, context)` : inserts the memory row with the
declared column defaults (`importance` 0.5, `access_count` 0,
`last_accessed` NULL) and one `context_index` row per context pair,
returning the new id. -/
def DB.store (db : DB) (content : String) (context : List (String × String))
    (now : Nat) : Nat × DB :=
  let mid := db.next_id
  let row : MemoryRow :=
    { id := mid, content := content, context := context, timestamp := now,
      importance := mkRat 1 2, access_count := 0, last_accessed := none }
  let entries := context.map (fun kv => CtxEntry.mk mid kv.1 kv.2)
  (mid, { db with
            memories := db.memories ++ [row],
            context_index := db.context_index ++ entries,
            next_id := db.next_id + 1 })

/-- One disjunct of the WHERE clause of `retrieve_by_context` applied to a
joined row: the JOIN condition `m.id = ci.memory_id` together with
`(ci.context_key = ? AND ci.context_value = ?)` for some queried pair. -/
def entryMatches (query : List (String × String)) (mid : Nat) (e : CtxEntry) : Bool :=
  e.memory_id == mid &&
    query.any (fun kv => e.context_key == kv.1 && e.context_value == kv.2)

/-- A memory row satisfies the `SELECT DISTINCT m.* ... JOIN context_index ci
ON m.id = ci.memory_id WHERE <OR of pair conditions>` query exactly when some
`context_index` row joins with it and satisfies one of the OR-ed pair
conditions. -/
def rowMatches (db : DB) (query : List (String × String)) (m : MemoryRow) : Bool :=
  db.context_index.any (entryMatches query m.id)

/-- The output order requested by `ORDER BY m.importance DESC,
m.access_count DESC` : `a` may be listed no later than `b`. -/
def rankR (a b : MemoryRow) : Prop :=
  b.importance < a.importance ∨
    (a.importance = b.importance ∧ b.access_count ≤ a.access_count)

instance : DecidableRel rankR := fun a b => by
  unfold rankR; exact inferInstance

instance : IsTotal MemoryRow rankR := by
  constructor
  intro a b
  rcases lt_trichotomy a.importance b.importance with h | h | h
  · exact Or.inr (Or.inl h)
  · rcases Nat.le_total b.access_count a.access_count with h2 | h2
    · exact Or.inl (Or.inr ⟨h, h2⟩)
    · exact Or.inr (Or.inr ⟨h.symm, h2⟩)
  · exact Or.inl (Or.inl h)

instance : IsTrans MemoryRow rankR := by
  constructor
  intro a b c hab hbc
  rcases hab with h1 | ⟨h1, h1'⟩ <;> rcases hbc with h2 | ⟨h2, h2'⟩
  · exact Or.inl (h2.trans h1)
  · exact Or.inl (lt_of_eq_of_lt h2.symm h1)
  · exact Or.inl (lt_of_lt_of_eq h2 h1.symm)
  · exact Or.inr ⟨h1.trans h2, Nat.le_trans h2' h1'⟩

/-- The access-statistics UPDATE of `retrieve_by_context`: every fetched row
has its `access_count` incremented and `last_accessed` set to now. -/
def bump (ids : List Nat) (now : Nat) (m : MemoryRow) : MemoryRow :=
  if m.id ∈ ids then
    { m with access_count := m.access_count + 1, last_accessed := some now }
  else m

/-- `MemorySystem.retrieve_by_context(context, limit)`.

For an empty context dict the loop adds zero conditions, the assembled SQL
reads `... WHERE ORDER BY ...`, and `cursor.execute` raises
`sqlite3.OperationalError`; this is the `none` branch.  Otherwise the rows
satisfying the OR-ed WHERE clause are ordered by `importance DESC,
access_count DESC` (ties kept in table-scan order, modelled by the stable
`insertionSort`), truncated by `LIMIT`, their access statistics updated, and
the fetched (pre-update) rows returned. -/
def DB.retrieve_by_context (db : DB) (query : List (String × String))
    (limit : Nat) (now : Nat) : Option (List MemoryRow × DB) :=
  if query.isEmpty then none
  else
    let rows := ((db.memories.filter (rowMatches db query)).insertionSort rankR).take limit
    let ids := rows.map (·.id)
    some (rows, { db with memories := db.memories.map (bump ids now) })

/-- `MemorySystem.create_association(source_id, target_id, strength)` :
`INSERT OR REPLACE` deletes any row with the same `(source_id, target_id)`
primary key and appends the new row.  The method performs no check of
`strength` and no check that either id references a memory row. -/
def DB.create_association (db : DB) (source_id target_id : Nat)
    (strength : Rat) : DB :=
  { db with associations :=
      (db.associations.filter
        (fun a => !(a.source_id == source_id && a.target_id == target_id)))
        ++ [⟨source_id, target_id, strength⟩] }

/-- Output order of `get_associated_memories` (`ORDER BY a.strength DESC`). -/
def strengthR (a b : MemoryRow × Rat) : Prop := b.2 ≤ a.2

instance : DecidableRel strengthR := fun a b => by
  unfold strengthR; exact inferInstance

/-- `MemorySystem.get_associated_memories(memory_id, min_strength)` : joins
`associations` rows with `a.source_id = memory_id AND a.strength >=
min_strength` against `memories` on `m.id = a.target_id`, ordered by strength
descending.  A `memory_id` with no qualifying edges yields the empty list;
nothing raises. -/
def DB.get_associated_memories (db : DB) (memory_id : Nat)
    (min_strength : Rat) : List (MemoryRow × Rat) :=
  let joined := db.associations.filterMap (fun a =>
    if a.source_id == memory_id && decide (min_strength ≤ a.strength) then
      (db.memories.find? (fun m => m.id == a.target_id)).map
        (fun m => (m, a.strength))
    else none)
  joined.insertionSort strengthR

/-- The retention predicate of `cleanup`:
`WHERE importance < ? AND access_count < ?`. -/
def qualifies (min_importance : Rat) (min_access_count : Nat)
    (m : MemoryRow) : Bool :=
  decide (m.importance < min_importance) &&
    decide (m.access_count < min_access_count)

/-- The per-id loop body of `cleanup`: delete the `context_index` rows of the
id, its `associations` rows (as source or as target) and its `memories` row. -/
def removeMemory (db : DB) (memory_id : Nat) : DB :=
  { db with
    context_index := db.context_index.filter (fun e => e.memory_id != memory_id),
    associations := db.associations.filter
      (fun a => !(a.source_id == memory_id || a.target_id == memory_id)),
    memories := db.memories.filter (fun m => m.id != memory_id) }

/-- `MemorySystem.cleanup(min_importance, min_access_count)` : selects the
ids of rows with `importance < min_importance AND access_count <
min_access_count`, runs the deletion loop over them, and returns how many
ids were selected. -/
def DB.cleanup (db : DB) (min_importance : Rat) (min_access_count : Nat) :
    Nat × DB :=
  let ids := (db.memories.filter (qualifies min_importance min_access_count)).map (·.id)
  (ids.length, ids.foldl removeMemory db)

/-! Working memory: `self.working_memory` is a Python dict from key to
a value/timestamp pair, modelled as an insertion-ordered list
of entries with distinct keys (assigning to an existing key keeps its
position; a new key is appended, exactly the CPython dict behavior the
dict round-trip of the prune step relies on). -/

/-- One entry of the working-memory dict. -/
structure WMEntry where
  key : String
  value : String
  timestamp : Nat
deriving DecidableEq

/-- The dict assignment `self.working_memory[key] = {...}`. -/
def wmInsert (wm : List WMEntry) (key value : String) (now : Nat) :
    List WMEntry :=
  if wm.any (fun e => e.key == key) then
    wm.map (fun e => if e.key == key then ⟨key, value, now⟩ else e)
  else
    wm ++ [⟨key, value, now⟩]

/-- Write-recency order used by `_prune_working_memory`
(`sorted(..., key=timestamp, reverse=True)`). -/
def tsR (a b : WMEntry) : Prop := b.timestamp ≤ a.timestamp

instance : DecidableRel tsR := fun a b => by
  unfold tsR; exact inferInstance

instance : IsTotal WMEntry tsR := ⟨fun a b => Nat.le_total b.timestamp a.timestamp⟩

instance : IsTrans WMEntry tsR := ⟨fun _ _ _ hab hbc => Nat.le_trans hbc hab⟩

/-- `MemorySystem._prune_working_memory` : stable sort by timestamp
descending, keep the first `limit` entries. -/
def prune_working_memory (limit : Nat) (wm : List WMEntry) : List WMEntry :=
  (wm.insertionSort tsR).take limit

/-- `MemorySystem.update_working_memory(key, value)` : dict assignment, then
prune when the size exceeds `working_memory_limit`. -/
def update_working_memory (limit : Nat) (wm : List WMEntry)
    (key value : String) (now : Nat) : List WMEntry :=
  let wm' := wmInsert wm key value now
  if wm'.length > limit then prune_working_memory limit wm' else wm'

/-- A whole caller session against the working memory: the updates applied
in order, starting from the empty dict of `__init__`. -/
def runWM (limit : Nat) (ops : List (String × String × Nat)) : List WMEntry :=
  ops.foldl (fun wm op => update_working_memory limit wm op.1 op.2.1 op.2.2) []

/-! Embedding of `MemoryDatabase` (src/brain/tools/memory.py): tables
`memories(id, timestamp, type, content, metadata, importance)` and
`tags(memory_id, tag)`. -/

/-- Row of the `memories` table of `MemoryDatabase`. -/
structure MDRow where
  id : Nat
  timestamp : Nat
  mtype : String
  content : String
  metadata : Option String
  importance : Rat
deriving DecidableEq

/-- Row of the `tags` table of `MemoryDatabase`: `(memory_id, tag)`. -/
structure TagEntry where
  memory_id : Nat
  tag : String
deriving DecidableEq

/-- The state of a `MemoryDatabase`: its two tables plus the next
AUTOINCREMENT id. -/
structure MDB where
  memories : List MDRow
  tags : List TagEntry
  next_id : Nat
deriving DecidableEq

/-- A fresh `MemoryDatabase` as built by `_init_db`. -/
def MDB.empty : MDB := ⟨[], [], 1⟩

/-- `MemoryDatabase.store(memory_type, content, tags, metadata, importance)` :
inserts the memory row and one `tags` row per tag, returning the new id. -/
def MDB.store (db : MDB) (mtype content : String) (tags : List String)
    (metadata : Option String) (importance : Rat) (now : Nat) : Nat × MDB :=
  let mid := db.next_id
  let row : MDRow :=
    { id := mid, timestamp := now, mtype := mtype, content := content,
      metadata := metadata, importance := importance }
  (mid, { db with
            memories := db.memories ++ [row],
            tags := db.tags ++ tags.map (fun t => TagEntry.mk mid t),
            next_id := db.next_id + 1 })

/-- `MemoryDatabase.delete(memory_id)` : `DELETE FROM tags WHERE memory_id =
?`, then `DELETE FROM memories WHERE id = ?`; the returned Boolean is
`cursor.rowcount > 0`, where `rowcount` is the number of rows deleted by the
last statement (the `memories` delete).  This class maintains no
`associations` table, so deletion cascades only through `tags`. -/
def MDB.delete (db : MDB) (memory_id : Nat) : Bool × MDB :=
  let rowcount := db.memories.countP (fun m => m.id == memory_id)
  (decide (rowcount > 0),
   { db with
     tags := db.tags.filter (fun t => t.memory_id != memory_id),
     memories := db.memories.filter (fun m => m.id != memory_id) })

/-! Spec-side predicates and auxiliary notions used to state the claims. -/

/-- The Boolean test for one association edge having a given ordered
`(source_id, target_id)` pair. -/
def edgePair (s t : Nat) (a : Edge) : Bool :=
  a.source_id == s && a.target_id == t

/-- The spec wording of the match condition of `retrieve_by_context`: at
least one of the indexed `(key, value)` pairs of the record equals at least
one queried `(key, value)` pair. -/
def specMatches (db : DB) (query : List (String × String)) (m : MemoryRow) : Prop :=
  ∃ e ∈ db.context_index, e.memory_id = m.id ∧
    (e.context_key, e.context_value) ∈ query

/-- An id is one of those selected for removal by
`cleanup(min_importance, min_access_count)`. -/
def removedIdB (db : DB) (min_importance : Rat) (min_access_count : Nat)
    (i : Nat) : Bool :=
  db.memories.any (fun m => m.id == i && qualifies min_importance min_access_count m)

/-- The result lists the SQL of `retrieve_by_context` permits.  The query
orders only by `importance DESC, access_count DESC`; SQLite leaves the
relative order of rows whose sort keys tie unspecified, so any output that
is a `LIMIT`-prefix of some `rankR`-sorted permutation of the matching rows
is allowed.  The deterministic model `DB.retrieve_by_context` realizes one
such permutation (table-scan order among ties). -/
def allowedRetrieve (db : DB) (query : List (String × String)) (limit : Nat)
    (result : List MemoryRow) : Prop :=
  query ≠ [] ∧
    ∃ full : List MemoryRow,
      List.Perm full (db.memories.filter (rowMatches db query)) ∧
      List.Sorted rankR full ∧ result = List.take limit full

/-- The output order asserted by the claim: importance descending, then
access_count descending, then id ascending as the final tie-break. -/
def claimRankR (a b : MemoryRow) : Prop :=
  b.importance < a.importance ∨
    (a.importance = b.importance ∧
      (b.access_count < a.access_count ∨
        (a.access_count = b.access_count ∧ a.id ≤ b.id)))

instance : DecidableRel claimRankR := fun a b => by
  unfold claimRankR; exact inferInstance

/-- Conclusion of the cleanup claim, as one predicate: the surviving
`memories` rows are exactly those not meeting both thresholds, the cascade
removes exactly the index rows and edges (inbound and outbound) of the
selected ids, and the returned count is the number of selected rows. -/
def cleanupSpec (db : DB) (mi : Rat) (ma : Nat) : Prop :=
  (db.cleanup mi ma).2.memories = db.memories.filter (fun m => !qualifies mi ma m) ∧
  (db.cleanup mi ma).2.context_index
    = db.context_index.filter (fun e => !removedIdB db mi ma e.memory_id) ∧
  (db.cleanup mi ma).2.associations
    = db.associations.filter
        (fun a => !(removedIdB db mi ma a.source_id || removedIdB db mi ma a.target_id)) ∧
  (db.cleanup mi ma).1 = (db.memories.filter (qualifies mi ma)).length

/-! Concrete scenario states used by counterexamples and witnesses.  Each
group below replays a short caller session against the model. -/

/-- C1 uses only `DB.empty`; C2 replays: store A, store B, edge (1,2,0.6),
one retrieve that bumps record 2, then a cleanup that evicts record 1. -/
def C2dbA : DB := (DB.empty.store "fact A" [("t", "x")] 0).2

def C2dbB : DB := (C2dbA.store "fact B" [("t", "y")] 1).2

def C2dbE : DB := C2dbB.create_association 1 2 (mkRat 3 5)

def C2dbR : DB := ((C2dbE.retrieve_by_context [("t", "y")] 10 2).getD ([], C2dbE)).2

def C2db : DB := (C2dbR.cleanup (mkRat 3 5) 1).2

/-- C4: two stored records matching the same tag with identical importance
and access_count (ids 1 and 2). -/
def C4db : DB := ((DB.empty.store "A" [("k", "v")] 0).2.store "B" [("k", "v")] 1).2

def C4row1 : MemoryRow :=
  ⟨1, "A", [("k", "v")], 0, mkRat 1 2, 0, none⟩

def C4row2 : MemoryRow :=
  ⟨2, "B", [("k", "v")], 1, mkRat 1 2, 0, none⟩

/-- C6 witness state: record 1 has `access_count` 1 (bumped by a retrieve),
record 2 still 0, so `cleanup 1 1` selects exactly record 2. -/
def C6dbA : DB := (DB.empty.store "A" [("q", "q1"), ("k", "v")] 0).2

def C6dbB : DB := (C6dbA.store "B" [("k", "v")] 1).2

def C6dbE : DB := C6dbB.create_association 1 2 (mkRat 3 5)

def C6db : DB := ((C6dbE.retrieve_by_context [("q", "q1")] 10 2).getD ([], C6dbE)).2

/-- C8: record 1 carries tags `(q,q1)` and `(k,v)`, record 2 only `(k,v)`;
the first retrieve bumps the `access_count` of record 1, so a later query for
`(k,v)` with `LIMIT 1` ranks record 1 first and drops record 2. -/
def C8dbA : DB := (DB.empty.store "A" [("q", "q1"), ("k", "v")] 0).2

def C8dbB : DB := (C8dbA.store "B" [("k", "v")] 1).2

def C8db : DB := ((C8dbB.retrieve_by_context [("q", "q1")] 10 2).getD ([], C8dbB)).2

def C8row1 : MemoryRow :=
  ⟨1, "A", [("q", "q1"), ("k", "v")], 0, mkRat 1 2, 1, some 2⟩

/-- C8 witness: a single record tagged `(k,v)` and a limit large enough for
every match. -/
def C8Wdb : DB := (DB.empty.store "A" [("k", "v")] 0).2

def C8Wrow : MemoryRow :=
  ⟨1, "A", [("k", "v")], 0, mkRat 1 2, 0, none⟩

def C8Wrows : List MemoryRow :=
  ((C8Wdb.retrieve_by_context [("k", "v")] 10 7).getD ([], C8Wdb)).1

def C8Wdb2 : DB :=
  ((C8Wdb.retrieve_by_context [("k", "v")] 10 7).getD ([], C8Wdb)).2

/-- C10: two records matching the queried tag, retrieved at time 5. -/
def C10db : DB := ((DB.empty.store "A" [("k", "v")] 0).2.store "B" [("k", "v")] 1).2

def C10rows : List MemoryRow :=
  ((C10db.retrieve_by_context [("k", "v")] 10 5).getD ([], C10db)).1

def C10db2 : DB :=
  ((C10db.retrieve_by_context [("k", "v")] 10 5).getD ([], C10db)).2

def C10row1 : MemoryRow :=
  ⟨1, "A", [("k", "v")], 0, mkRat 1 2, 0, none⟩

/-- C3 witness: two records, ids 1 (two tags) and 2 (one tag). -/
def C3db : MDB :=
  ((MDB.empty.store "fact" "A" ["x", "y"] none (mkRat 1 2) 0).2.store
    "fact" "B" ["x"] none (mkRat 4 5) 1).2

/-- C7 witness material: a session of three distinct keys against limit 2,
and a pre-insert dict of size 2 that the third insert pushes over the limit. -/
def C7ops : List (String × String × Nat) := [("a", "1", 0), ("b", "2", 1), ("c", "3", 2)]

def C7wm : List WMEntry := [⟨"a", "1", 0⟩, ⟨"b", "2", 1⟩]

/-! Helper lemmas shared between several claims. -/

/-- After `create_association`, the `associations` rows with the given
ordered pair are exactly the one just written: `INSERT OR REPLACE` on the
`(source_id, target_id)` primary key. -/
theorem create_association_filter_pair (db : DB) (s t : Nat) (w : Rat) :
    ((db.create_association s t w).associations.filter (edgePair s t))
      = [⟨s, t, w⟩] := by
  unfold DB.create_association edgePair
  rw [List.filter_append, List.filter_filter]
  simp

/-! Claim C1. -/

/-- C1, counterexample: the strength 2 lies outside `[0, 1]`, yet
`create_association(1, 2, 2)` on a fresh store succeeds and writes the edge
with strength 2 — `MemorySystem.create_association` contains no validation
at all, contradicting the claim that every out-of-range strength fails with
`ValidationError` and writes no edge. -/
theorem C1_counterexample :
    ¬((0 : Rat) ≤ 2 ∧ (2 : Rat) ≤ 1) ∧
      (DB.empty.create_association 1 2 2).associations = [⟨1, 2, 2⟩] :=
  ⟨by decide, by decide⟩

/-- C1 (amended): `create_association` performs no range validation; for
every strength, including any outside `[0, 1]`, the call succeeds and
upserts the edge with exactly the supplied strength, replacing any prior
edge for the ordered pair. -/
theorem C1_no_strength_validation (db : DB) (s t : Nat) (w : Rat)
    (_hw : ¬(0 ≤ w ∧ w ≤ 1)) :
    ((db.create_association s t w).associations.filter (edgePair s t))
      = [⟨s, t, w⟩] :=
  create_association_filter_pair db s t w

/-- C1, witness for the amended theorem at strength 2 on the fresh store. -/
theorem C1_witness :
    ¬((0 : Rat) ≤ 2 ∧ (2 : Rat) ≤ 1) ∧
      ((DB.empty.create_association 1 2 2).associations.filter (edgePair 1 2))
        = [⟨1, 2, 2⟩] :=
  ⟨by decide, C1_no_strength_validation DB.empty 1 2 2 (by decide)⟩

/-! Claim C2. -/

/-- C2, counterexample: after the session store A, store B, edge
`(1, 2, 0.6)`, one retrieve of record 2, record 1 is evicted by `cleanup`
(`C2db.memories` holds only id 2), yet `get_associated_memories(1, 0.5)`
succeeds and returns the empty list instead of failing with
`NotFoundError`, and `create_association(1, 2, 0.7)` referencing the
evicted id succeeds and writes the edge. -/
theorem C2_counterexample :
    C2dbR.memories.map (fun m => m.id) = [1, 2] ∧
    C2db.memories.map (fun m => m.id) = [2] ∧
    C2db.get_associated_memories 1 (mkRat 1 2) = [] ∧
    (C2db.create_association 1 2 (mkRat 7 10)).associations
      = [⟨1, 2, mkRat 7 10⟩] :=
  ⟨by decide, by decide, by decide, by decide⟩

/-- C2 (amended): no operation checks id liveness.  On an id that no
memory row carries (in particular an evicted one) and that no remaining
edge leaves (cascade deletion guarantees this after eviction),
`get_associated_memories` returns the empty list rather than failing, and
`create_association` referencing the absent id succeeds and writes the
edge. -/
theorem C2_no_liveness_check (db : DB) (sid tgt : Nat) (ms w : Rat)
    (_hs : ∀ m ∈ db.memories, m.id ≠ sid)
    (he : ∀ a ∈ db.associations, a.source_id ≠ sid) :
    db.get_associated_memories sid ms = [] ∧
    ((db.create_association sid tgt w).associations.filter (edgePair sid tgt))
      = [⟨sid, tgt, w⟩] := by
  constructor
  · unfold DB.get_associated_memories
    have h : db.associations.filterMap (fun a =>
        if a.source_id == sid && decide (ms ≤ a.strength) then
          (db.memories.find? (fun m => m.id == a.target_id)).map
            (fun m => (m, a.strength))
        else none) = [] := by
      rw [List.filterMap_eq_nil_iff]
      intro a ha
      simp [he a ha]
    rw [h]
    rfl
  · exact create_association_filter_pair db sid tgt w

/-- C2, witness for the amended theorem on the post-eviction state. -/
theorem C2_witness :
    (∀ m ∈ C2db.memories, m.id ≠ 1) ∧
    (∀ a ∈ C2db.associations, a.source_id ≠ 1) ∧
    (C2db.get_associated_memories 1 (mkRat 1 2) = [] ∧
      ((C2db.create_association 1 2 (mkRat 7 10)).associations.filter (edgePair 1 2))
        = [⟨1, 2, mkRat 7 10⟩]) :=
  ⟨by decide, by decide,
    C2_no_liveness_check C2db 1 2 (mkRat 1 2) (mkRat 7 10) (by decide) (by decide)⟩

/-! Claim C3. -/

/-- C3: `MemoryDatabase.delete(id)` removes the record with that id and all
of its tag index entries, keeps every other record and tag entry, and
returns true exactly when a record with that id existed.  (This store
maintains no association table, so the edge-cascade clause of the claim has
nothing to cascade over: deletion is complete once record and index rows
are gone.) -/
theorem C3_delete_spec (db : MDB) (mid : Nat) :
    (∀ m : MDRow, m ∈ (db.delete mid).2.memories ↔ m ∈ db.memories ∧ m.id ≠ mid) ∧
    (∀ t : TagEntry, t ∈ (db.delete mid).2.tags ↔ t ∈ db.tags ∧ t.memory_id ≠ mid) ∧
    ((db.delete mid).1 = true ↔ ∃ m ∈ db.memories, m.id = mid) := by
  unfold MDB.delete
  refine ⟨?_, ?_, ?_⟩
  · intro m
    simp [List.mem_filter]
  · intro t
    simp [List.mem_filter]
  · simp [List.countP_pos_iff]

/-- C3, witness: deleting id 1 from the two-record store removes its row
and both of its tags, keeps record 2 and its tag, and reports true; a
second deletion of the now-absent id reports false. -/
theorem C3_witness :
    ((⟨2, 1, "fact", "B", none, mkRat 4 5⟩ : MDRow) ∈ (C3db.delete 1).2.memories
        ↔ (⟨2, 1, "fact", "B", none, mkRat 4 5⟩ : MDRow) ∈ C3db.memories ∧ (2 : Nat) ≠ 1) ∧
    ((⟨1, "x"⟩ : TagEntry) ∈ (C3db.delete 1).2.tags
        ↔ (⟨1, "x"⟩ : TagEntry) ∈ C3db.tags ∧ (1 : Nat) ≠ 1) ∧
    ((C3db.delete 1).1 = true ↔ ∃ m ∈ C3db.memories, m.id = 1) :=
  ⟨(C3_delete_spec C3db 1).1 ⟨2, 1, "fact", "B", none, mkRat 4 5⟩,
   (C3_delete_spec C3db 1).2.1 ⟨1, "x"⟩,
   (C3_delete_spec C3db 1).2.2⟩

/-! Claim C5. -/

/-- C5: a record satisfies the WHERE clause of `retrieve_by_context`
exactly when at least one of its indexed `(key, value)` pairs equals at
least one queried pair — OR semantics across both the tag set of the record
and the query set. -/
theorem C5_or_semantics (db : DB) (query : List (String × String)) (m : MemoryRow) :
    rowMatches db query m = true ↔ specMatches db query m := by
  unfold rowMatches specMatches entryMatches
  rw [List.any_eq_true]
  constructor
  · rintro ⟨e, he, hcond⟩
    simp only [Bool.and_eq_true, beq_iff_eq, List.any_eq_true] at hcond
    obtain ⟨hid, kv, hkv, hk, hv⟩ := hcond
    refine ⟨e, he, hid, ?_⟩
    have hkv2 : (e.context_key, e.context_value) = kv := by
      cases kv
      simp_all
    rwa [hkv2]
  · rintro ⟨e, he, hid, hmem⟩
    refine ⟨e, he, ?_⟩
    simp only [Bool.and_eq_true, beq_iff_eq, List.any_eq_true]
    exact ⟨hid, (e.context_key, e.context_value), hmem, rfl, rfl⟩

/-! Claim C6: the cleanup loop, reduced to one bulk characterization. -/

/-- Running the deletion loop of `cleanup` over a list of ids filters the
`memories` table down to the rows whose id is not in the list. -/
theorem foldl_removeMemory_memories (ids : List Nat) (db : DB) :
    (ids.foldl removeMemory db).memories
      = db.memories.filter (fun m => !ids.any (fun i => m.id == i)) := by
  induction ids generalizing db with
  | nil => simp
  | cons i ids ih =>
      rw [List.foldl_cons, ih]
      show (removeMemory db i).memories.filter _ = _
      unfold removeMemory
      rw [List.filter_filter]
      apply List.filter_congr
      intro m _hm
      simp only [List.any_cons, Bool.not_or, bne]
      exact Bool.and_comm _ _

/-- The deletion loop filters the `context_index` table down to the rows
whose `memory_id` is not in the id list. -/
theorem foldl_removeMemory_context (ids : List Nat) (db : DB) :
    (ids.foldl removeMemory db).context_index
      = db.context_index.filter (fun e => !ids.any (fun i => e.memory_id == i)) := by
  induction ids generalizing db with
  | nil => simp
  | cons i ids ih =>
      rw [List.foldl_cons, ih]
      show (removeMemory db i).context_index.filter _ = _
      unfold removeMemory
      rw [List.filter_filter]
      apply List.filter_congr
      intro e _he
      simp only [List.any_cons, Bool.not_or, bne]
      exact Bool.and_comm _ _

/-- The deletion loop filters the `associations` table down to the edges
touching (as source or as target) no id of the list. -/
theorem foldl_removeMemory_assoc (ids : List Nat) (db : DB) :
    (ids.foldl removeMemory db).associations
      = db.associations.filter
          (fun a => !ids.any (fun i => a.source_id == i || a.target_id == i)) := by
  induction ids generalizing db with
  | nil => simp
  | cons i ids ih =>
      rw [List.foldl_cons, ih]
      show (removeMemory db i).associations.filter _ = _
      unfold removeMemory
      rw [List.filter_filter]
      apply List.filter_congr
      intro a _ha
      simp only [List.any_cons, Bool.not_or, bne]
      exact Bool.and_comm _ _

/-- C6: `cleanup(min_importance, min_access_count)` removes exactly the
records with `importance < min_importance` and `access_count <
min_access_count` (conjunction), cascades each removal through the context
index and through both inbound and outbound association edges, and returns
the number of records removed.  The hypothesis is the PRIMARY KEY
invariant: `memories` ids are distinct. -/
theorem C6_cleanup_spec (db : DB) (mi : Rat) (ma : Nat)
    (hnd : (db.memories.map (fun m => m.id)).Nodup) :
    cleanupSpec db mi ma := by
  have hinj : ∀ x ∈ db.memories, ∀ y ∈ db.memories, x.id = y.id → x = y :=
    List.inj_on_of_nodup_map hnd
  unfold cleanupSpec DB.cleanup
  refine ⟨?_, ?_, ?_, ?_⟩
  · rw [foldl_removeMemory_memories]
    apply List.filter_congr
    intro m hm
    congr 1
    rw [Bool.eq_iff_iff, List.any_eq_true]
    constructor
    · rintro ⟨i, hi, hmi⟩
      rw [List.mem_map] at hi
      obtain ⟨m2, hm2, rfl⟩ := hi
      rw [List.mem_filter] at hm2
      have : m = m2 := hinj m hm m2 hm2.1 (by simpa using hmi)
      rw [this]
      exact hm2.2
    · intro hq
      exact ⟨m.id, List.mem_map_of_mem _ (List.mem_filter.mpr ⟨hm, hq⟩), by simp⟩
  · rw [foldl_removeMemory_context]
    apply List.filter_congr
    intro e _he
    congr 1
    rw [Bool.eq_iff_iff, List.any_eq_true]
    unfold removedIdB
    rw [List.any_eq_true]
    constructor
    · rintro ⟨i, hi, hei⟩
      rw [List.mem_map] at hi
      obtain ⟨m2, hm2, rfl⟩ := hi
      rw [List.mem_filter] at hm2
      exact ⟨m2, hm2.1, by simp_all⟩
    · rintro ⟨m2, hm2, hcond⟩
      simp only [Bool.and_eq_true, beq_iff_eq] at hcond
      exact ⟨m2.id, List.mem_map_of_mem _ (List.mem_filter.mpr ⟨hm2, hcond.2⟩),
        by simp [hcond.1]⟩
  · rw [foldl_removeMemory_assoc]
    apply List.filter_congr
    intro a _ha
    congr 1
    rw [Bool.eq_iff_iff, List.any_eq_true]
    unfold removedIdB
    simp only [Bool.or_eq_true, List.any_eq_true, Bool.and_eq_true, beq_iff_eq]
    constructor
    · rintro ⟨i, hi, hcase⟩
      rw [List.mem_map] at hi
      obtain ⟨m2, hm2, rfl⟩ := hi
      rw [List.mem_filter] at hm2
      rcases hcase with h | h
      · exact Or.inl ⟨m2, hm2.1, by simp_all, hm2.2⟩
      · exact Or.inr ⟨m2, hm2.1, by simp_all, hm2.2⟩
    · rintro (⟨m2, hm2, hid, hq⟩ | ⟨m2, hm2, hid, hq⟩)
      · exact ⟨m2.id, List.mem_map_of_mem _ (List.mem_filter.mpr ⟨hm2, hq⟩),
          Or.inl (by simp [hid])⟩
      · exact ⟨m2.id, List.mem_map_of_mem _ (List.mem_filter.mpr ⟨hm2, hq⟩),
          Or.inr (by simp [hid])⟩
  · simp

/-- C6, witness: on `C6db` (record 1 bumped once, record 2 untouched),
`cleanup 1 1` selects exactly record 2. -/
theorem C6_witness :
    (C6db.memories.map (fun m => m.id)).Nodup ∧ cleanupSpec C6db 1 1 :=
  ⟨by decide, C6_cleanup_spec C6db 1 1 (by decide)⟩

/-! Claim C7. -/

/-- One `update_working_memory` call always leaves at most `limit`
entries: either the insert stayed within the limit, or the prune step cut
the dict back to `limit`. -/
theorem update_working_memory_length_le (limit : Nat) (wm : List WMEntry)
    (k v : String) (n : Nat) :
    (update_working_memory limit wm k v n).length ≤ limit := by
  unfold update_working_memory
  by_cases h : (wmInsert wm k v n).length > limit
  · rw [if_pos h]
    unfold prune_working_memory
    rw [List.length_take]
    omega
  · rw [if_neg h]
    omega

/-- Folding any sequence of updates keeps the dict within the limit. -/
theorem foldl_update_length_le (limit : Nat) (ops : List (String × String × Nat))
    (wm : List WMEntry) (h : wm.length ≤ limit) :
    (ops.foldl (fun w op => update_working_memory limit w op.1 op.2.1 op.2.2) wm).length
      ≤ limit := by
  induction ops generalizing wm with
  | nil => exact h
  | cons op ops ih =>
      exact ih _ (update_working_memory_length_le limit wm op.1 op.2.1 op.2.2)

/-- C7: after any sequence of `update_working_memory` calls the cache never
exceeds the configured limit; and whenever an insert pushes the size over
the limit, the call keeps exactly `limit` entries and every discarded entry
has a timestamp no newer than every retained one. -/
theorem C7_bounded_cache (limit : Nat) :
    (∀ ops, (runWM limit ops).length ≤ limit) ∧
    (∀ (wm : List WMEntry) (k v : String) (n : Nat),
      limit < (wmInsert wm k v n).length →
      (update_working_memory limit wm k v n).length = limit ∧
      ∃ dropped,
        (update_working_memory limit wm k v n ++ dropped).Perm (wmInsert wm k v n) ∧
        ∀ b ∈ dropped, ∀ a ∈ update_working_memory limit wm k v n,
          b.timestamp ≤ a.timestamp) := by
  constructor
  · intro ops
    exact foldl_update_length_le limit ops [] (by simp)
  · intro wm k v n h
    have hif : update_working_memory limit wm k v n
        = prune_working_memory limit (wmInsert wm k v n) := by
      unfold update_working_memory
      rw [if_pos (by omega)]
    have hperm := List.perm_insertionSort tsR (wmInsert wm k v n)
    have hlen : (List.insertionSort tsR (wmInsert wm k v n)).length
        = (wmInsert wm k v n).length := hperm.length_eq
    have hsorted := List.sorted_insertionSort tsR (wmInsert wm k v n)
    constructor
    · rw [hif]
      unfold prune_working_memory
      rw [List.length_take, hlen]
      omega
    · refine ⟨(List.insertionSort tsR (wmInsert wm k v n)).drop limit, ?_, ?_⟩
      · rw [hif]
        unfold prune_working_memory
        rw [List.take_append_drop]
        exact hperm
      · intro b hb a ha
        rw [hif] at ha
        unfold prune_working_memory at ha
        have hpw : List.Pairwise tsR
            ((List.insertionSort tsR (wmInsert wm k v n)).take limit
              ++ (List.insertionSort tsR (wmInsert wm k v n)).drop limit) := by
          rw [List.take_append_drop]
          exact hsorted
        exact (List.pairwise_append.mp hpw).2.2 a ha b hb

/-- C7, witness: limit 2 with three distinct keys, and the overflowing
insert on the concrete two-entry dict. -/
theorem C7_witness :
    ((runWM 2 C7ops).length ≤ 2) ∧
    (2 < (wmInsert C7wm "c" "3" 2).length) ∧
    ((update_working_memory 2 C7wm "c" "3" 2).length = 2 ∧
      ∃ dropped,
        (update_working_memory 2 C7wm "c" "3" 2 ++ dropped).Perm (wmInsert C7wm "c" "3" 2) ∧
        ∀ b ∈ dropped, ∀ a ∈ update_working_memory 2 C7wm "c" "3" 2,
          b.timestamp ≤ a.timestamp) :=
  ⟨(C7_bounded_cache 2).1 C7ops, by decide,
    (C7_bounded_cache 2).2 C7wm "c" "3" 2 (by decide)⟩

/-! Claim C9. -/

/-- C9: with an empty query dict the assembled SQL has a WHERE clause with
zero OR-joined conditions and is malformed (`... WHERE ORDER BY ...`), so
`retrieve_by_context` raises `sqlite3.OperationalError` (modelled `none`)
rather than returning the empty list; every nonempty query set succeeds. -/
theorem C9_empty_query_error (db : DB) (limit now : Nat)
    (q : List (String × String)) :
    db.retrieve_by_context [] limit now = none ∧
    (q ≠ [] → (db.retrieve_by_context q limit now).isSome = true) := by
  constructor
  · rfl
  · intro hq
    unfold DB.retrieve_by_context
    rw [if_neg (by simp [List.isEmpty_iff, hq])]
    rfl

/-- C9, witness: the fresh store errors on the empty query and succeeds on
a singleton query. -/
theorem C9_witness :
    (([("k", "v")] : List (String × String)) ≠ []) ∧
    DB.empty.retrieve_by_context [] 10 0 = none ∧
    (DB.empty.retrieve_by_context [("k", "v")] 10 0).isSome = true :=
  ⟨by decide, (C9_empty_query_error DB.empty 10 0 [("k", "v")]).1,
    (C9_empty_query_error DB.empty 10 0 [("k", "v")]).2 (by decide)⟩

/-! Claim C10. -/

/-- C10: the records returned by `retrieve_by_context` are the
pre-increment snapshot: each returned row is literally a row of the
pre-call `memories` table, while the post-call table holds for the same id
a row whose `access_count` is one higher and whose `last_accessed` is now —
the returned records do not reflect the update made by this very call. -/
theorem C10_preincrement_snapshot (db : DB) (q : List (String × String))
    (limit now : Nat) (rows : List MemoryRow) (db2 : DB)
    (h : db.retrieve_by_context q limit now = some (rows, db2)) :
    ∀ r ∈ rows, r ∈ db.memories ∧
      ∃ m2 ∈ db2.memories, m2.id = r.id ∧
        m2.access_count = r.access_count + 1 ∧ m2.last_accessed = some now := by
  unfold DB.retrieve_by_context at h
  by_cases hq : q.isEmpty
  · rw [if_pos hq] at h
    exact absurd h (by simp)
  · rw [if_neg hq] at h
    have h2 := Option.some.inj h
    simp only [Prod.mk.injEq] at h2
    obtain ⟨hrows, hdb2⟩ := h2
    subst hrows
    subst hdb2
    intro r hr
    have hrmem : r ∈ db.memories := by
      have h3 : r ∈ (db.memories.filter (rowMatches db q)).insertionSort rankR :=
        (List.take_sublist _ _).subset hr
      have h4 : r ∈ db.memories.filter (rowMatches db q) :=
        (List.perm_insertionSort rankR _).mem_iff.mp h3
      exact (List.mem_filter.mp h4).1
    have hid : r.id ∈
        (((db.memories.filter (rowMatches db q)).insertionSort rankR).take limit).map
          (fun x => x.id) :=
      List.mem_map_of_mem _ hr
    refine ⟨hrmem,
      bump ((((db.memories.filter (rowMatches db q)).insertionSort rankR).take limit).map
        (fun x => x.id)) now r, ?_, ?_⟩
    · exact List.mem_map_of_mem _ hrmem
    · unfold bump
      rw [if_pos hid]
      exact ⟨rfl, rfl, rfl⟩

/-- C10, witness: two tied records retrieved at time 5; the returned copy of
record 1 still shows `access_count` 0 while the stored copy shows 1. -/
theorem C10_witness :
    (C10db.retrieve_by_context [("k", "v")] 10 5 = some (C10rows, C10db2)) ∧
    C10row1 ∈ C10rows ∧
    (C10row1 ∈ C10db.memories ∧
      ∃ m2 ∈ C10db2.memories, m2.id = C10row1.id ∧
        m2.access_count = C10row1.access_count + 1 ∧ m2.last_accessed = some 5) :=
  ⟨by decide, by decide,
    C10_preincrement_snapshot C10db [("k", "v")] 10 5 C10rows C10db2 (by decide)
      C10row1 (by decide)⟩

/-! Claim C8. -/

/-- C8, counterexample: in `C8db` record 2 was stored with tag `(k, v)`
(its index row is present and its record row is live), yet
`retrieve_by_context({(k,v)}, 1)` — a limit of at least 1 — returns only
record 1, because record 1 outranks it on `access_count` and LIMIT cuts the
list; so the claimed round-trip fails for record 2. -/
theorem C8_counterexample :
    CtxEntry.mk 2 "k" "v" ∈ C8db.context_index ∧
    (∃ m ∈ C8db.memories, m.id = 2) ∧
    (C8db.retrieve_by_context [("k", "v")] 1 3).map (fun p => p.1.map (fun r => r.id))
      = some [1] :=
  ⟨by decide, by decide, by decide⟩

/-- C8 (amended): a record stored with tag `(k, v)` is included in the
result of `retrieve_by_context({(k,v)}, limit)` provided `limit` is at
least the number of records matching the query (the LIMIT truncation is the
only reason a stored matching record can be dropped). -/
theorem C8_roundtrip_when_limit_suffices (db : DB) (m : MemoryRow)
    (k v : String) (limit now : Nat) (rows : List MemoryRow) (db2 : DB)
    (hm : m ∈ db.memories)
    (he : CtxEntry.mk m.id k v ∈ db.context_index)
    (hlim : (db.memories.filter (rowMatches db [(k, v)])).length ≤ limit)
    (h : db.retrieve_by_context [(k, v)] limit now = some (rows, db2)) :
    m ∈ rows := by
  unfold DB.retrieve_by_context at h
  rw [if_neg (by simp)] at h
  have hrows : rows
      = ((db.memories.filter (rowMatches db [(k, v)])).insertionSort rankR).take limit :=
    (Prod.ext_iff.mp (Option.some.inj h)).1.symm
  have hmatch : rowMatches db [(k, v)] m = true := by
    unfold rowMatches
    rw [List.any_eq_true]
    exact ⟨⟨m.id, k, v⟩, he, by simp [entryMatches]⟩
  have hmem : m ∈ db.memories.filter (rowMatches db [(k, v)]) :=
    List.mem_filter.mpr ⟨hm, hmatch⟩
  have hlen : ((db.memories.filter (rowMatches db [(k, v)])).insertionSort rankR).length
      ≤ limit := by
    rw [(List.perm_insertionSort rankR _).length_eq]
    exact hlim
  rw [hrows, List.take_of_length_le hlen]
  exact (List.perm_insertionSort rankR _).mem_iff.mpr hmem

/-- C8, witness: one record tagged `(k, v)`, limit 10 ≥ 1 match. -/
theorem C8_witness :
    C8Wrow ∈ C8Wdb.memories ∧
    CtxEntry.mk C8Wrow.id "k" "v" ∈ C8Wdb.context_index ∧
    (C8Wdb.memories.filter (rowMatches C8Wdb [("k", "v")])).length ≤ 10 ∧
    (C8Wdb.retrieve_by_context [("k", "v")] 10 7 = some (C8Wrows, C8Wdb2)) ∧
    C8Wrow ∈ C8Wrows :=
  ⟨by decide, by decide, by decide, by decide,
    C8_roundtrip_when_limit_suffices C8Wdb C8Wrow "k" "v" 10 7 C8Wrows C8Wdb2
      (by decide) (by decide) (by decide) (by decide)⟩

/-! Claim C4. -/

/-- The output of the deterministic model is one of the outputs the SQL permits:
the stable sort it uses is a `rankR`-sorted permutation of the matching
rows, and the result is its LIMIT-prefix. -/
theorem retrieve_is_allowed (db : DB) (q : List (String × String))
    (limit now : Nat) (rows : List MemoryRow) (db2 : DB)
    (h : db.retrieve_by_context q limit now = some (rows, db2)) :
    allowedRetrieve db q limit rows := by
  unfold DB.retrieve_by_context at h
  by_cases hq : q.isEmpty
  · rw [if_pos hq] at h
    exact absurd h (by simp)
  · rw [if_neg hq] at h
    refine ⟨by simpa [List.isEmpty_iff] using hq,
      (db.memories.filter (rowMatches db q)).insertionSort rankR,
      List.perm_insertionSort rankR _, List.sorted_insertionSort rankR _, ?_⟩
    exact (Prod.ext_iff.mp (Option.some.inj h)).1.symm

/-- C4, counterexample: `C4db` holds two matching records that tie on both
importance and access_count.  The ORDER BY of the SQL (importance DESC,
access_count DESC, and nothing else) permits both orders — in particular
the id-descending one — so the ranking is neither id-ascending on ties nor
deterministic, contradicting the claimed final tie-break. -/
theorem C4_counterexample :
    allowedRetrieve C4db [("k", "v")] 10 [C4row2, C4row1] ∧
    ¬ List.Sorted claimRankR [C4row2, C4row1] ∧
    allowedRetrieve C4db [("k", "v")] 10 [C4row1, C4row2] ∧
    [C4row2, C4row1] ≠ [C4row1, C4row2] :=
  ⟨⟨by decide, [C4row2, C4row1], by decide, by decide, by decide⟩,
    by decide,
    ⟨by decide, [C4row1, C4row2], by decide, by decide, by decide⟩,
    by decide⟩

/-- C4 (amended): every output the SQL permits is sorted by importance
descending, then access_count descending, and truncated to `limit`; the
order among rows tied on both keys is unspecified (the query has no id
tie-break). -/
theorem C4_rank_order (db : DB) (q : List (String × String)) (limit : Nat)
    (result : List MemoryRow) (h : allowedRetrieve db q limit result) :
    List.Sorted rankR result ∧ result.length ≤ limit := by
  obtain ⟨-, full, _hperm, hsort, hres⟩ := h
  subst hres
  constructor
  · exact List.Pairwise.sublist (List.take_sublist _ _) hsort
  · rw [List.length_take]
    exact min_le_left _ _

/-- C4, witness: the amended theorem applied to one permitted output on the
concrete tied store. -/
theorem C4_witness :
    allowedRetrieve C4db [("k", "v")] 10 [C4row1, C4row2] ∧
    (List.Sorted rankR [C4row1, C4row2] ∧
      ([C4row1, C4row2] : List MemoryRow).length ≤ 10) :=
  ⟨⟨by decide, [C4row1, C4row2], by decide, by decide, by decide⟩,
    C4_rank_order C4db [("k", "v")] 10 [C4row1, C4row2]
      ⟨by decide, [C4row1, C4row2], by decide, by decide, by decide⟩⟩

end Brain
